import Mathlib

/-!
Shallow embedding of the wtui sampling-to-persistence core
(crates/wtui-core/src/metrics.rs, crates/wtui-core/src/db.rs,
crates/wtui-daemon/src/main.rs, crates/wtui/src/main.rs) together with
theorems settling the frozen claims about the delta engine, the schema
migration, retention pruning, network aggregation and the query facade.

Machine-integer conventions: Rust `u64` values are modelled as `Nat`,
`i64` values as `Int`; the `u64 as i64` cast and release-mode wrapping
arithmetic are modelled explicitly through reduction modulo `2^64`.
Rust `f64` results are modelled as `ℚ` (the computations involved are a
single division and multiplication whose range facts survive rounding).
-/

namespace Wtui

/-! ### Machine integers -/

/-- Reduce an integer into the `i64` range `[-2^63, 2^63)`, two's-complement
style.  `wrapI64 x ≡ x [ZMOD 2^64]`. -/
def wrapI64 (x : Int) : Int := (x + 2 ^ 63) % 2 ^ 64 - 2 ^ 63

/-- The Rust cast `u64 as i64` (always wrapping, in every build profile). -/
def i64OfU64 (x : Nat) : Int := wrapI64 x

/-- Release-mode `i64` subtraction: wraps on overflow. -/
def i64Sub (a b : Int) : Int := wrapI64 (a - b)

/-- Rust `u64::checked_sub`. -/
def checkedSub (a b : Nat) : Option Nat := if b ≤ a then some (a - b) else none

/-! ### metrics.rs: CPU counters -/

/-- `CpuTimes` from metrics.rs: the eight `u64` time buckets of the
aggregate line of `/proc/stat`. -/
structure CpuTimes where
  user : Nat
  nice : Nat
  system : Nat
  idle : Nat
  iowait : Nat
  irq : Nat
  softirq : Nat
  steal : Nat
deriving DecidableEq

/-- `CpuTimes::total`: sum of all eight buckets.  The Rust additions are
`u64` additions; a single final reduction modulo `2^64` is equivalent to
reducing after every addition. -/
def CpuTimes.total (t : CpuTimes) : Nat :=
  (t.user + t.nice + t.system + t.idle + t.iowait + t.irq + t.softirq + t.steal) % 2 ^ 64

/-- `CpuTimes::idle_total`: `idle + iowait` as a `u64` addition. -/
def CpuTimes.idle_total (t : CpuTimes) : Nat := (t.idle + t.iowait) % 2 ^ 64

/-- `cpu_usage_percent` from metrics.rs: `checked_sub` on both the total and
the idle counters (so any decrease yields `None`), `None` on a zero total
delta, otherwise `(Δtotal − Δidle) / Δtotal × 100` with a saturating
subtraction in the numerator. -/
def cpu_usage_percent (prev current : CpuTimes) : Option ℚ :=
  let prev_idle := prev.idle_total
  let idle := current.idle_total
  let prev_total := prev.total
  let total := current.total
  match checkedSub total prev_total with
  | none => none
  | some totald =>
    match checkedSub idle prev_idle with
    | none => none
    | some idled =>
      if totald = 0 then none
      else some (((totald - idled : Nat) : ℚ) / (totald : ℚ) * 100)

/-! ### metrics.rs: read_cpu_times

`read_cpu_times` reads the first line of `/proc/stat`; the function below
models its processing of that line's content.  Strings are processed as
their character lists so that concrete runs reduce in the kernel. -/

/-- Outcome of `read_cpu_times` on a given aggregate line: a format error
(`anyhow::bail!`), a Rust panic (an out-of-bounds `Vec` index), or a parsed
`CpuTimes`. -/
inductive CpuReadResult where
  | formatError
  | panicked
  | ok (t : CpuTimes)
deriving DecidableEq

/-- Rust `str::split_whitespace` over a character list: maximal non-empty
runs of non-whitespace characters. -/
def splitWhitespace : List Char → List Char → List (List Char)
  | [], acc => if acc = [] then [] else [acc.reverse]
  | c :: rest, acc =>
    if c.isWhitespace then
      if acc = [] then splitWhitespace rest []
      else acc.reverse :: splitWhitespace rest []
    else splitWhitespace rest (c :: acc)

/-- Rust `str::parse::<u64>`: an optional leading `+`, then at least one
ASCII digit, and the value must fit in a `u64`. -/
def parseU64 (cs : List Char) : Option Nat :=
  let ds := match cs with
    | '+' :: rest => rest
    | _ => cs
  if ds = [] then none
  else if ds.all Char.isDigit then
    let v := ds.foldl (fun acc c => acc * 10 + (c.toNat - 48)) 0
    if v < 2 ^ 64 then some v else none
  else none

/-- The line-processing part of `read_cpu_times` (metrics.rs lines 80-102):
split the aggregate line on whitespace, bail if fewer than 8 fields
(the `cpu` label included), parse fields 1.. (up to 8 of them) with
`unwrap_or(0)`, then index `nums[0]` .. `nums[7]`; a missing index is a
Rust panic. -/
def read_cpu_times_line (line : List Char) : CpuReadResult :=
  let parts := splitWhitespace line []
  if parts.length < 8 then .formatError
  else
    let nums := ((parts.drop 1).take 8).map (fun v => (parseU64 v).getD 0)
    match nums[0]?, nums[1]?, nums[2]?, nums[3]?, nums[4]?, nums[5]?, nums[6]?, nums[7]? with
    | some u, some n, some sy, some idl, some io, some iq, some sq, some st =>
        .ok ⟨u, n, sy, idl, io, iq, sq, st⟩
    | _, _, _, _, _, _, _, _ => .panicked

/-! ### metrics.rs: network counters and the daemon's delta engine -/

/-- `NetSnapshot` from metrics.rs: raw `u64` rx/tx byte counters for one
interface. -/
structure NetSnapshot where
  rx_bytes : Nat
  tx_bytes : Nat
deriving DecidableEq

/-- The network delta computation of `collect_cycle` (wtui-daemon main.rs
lines 138-149): with no prior snapshot neither a delta nor a reset is
produced; otherwise both deltas are computed with `u64 as i64` casts and
`i64` subtraction, and a negative delta marks `reset` and suppresses the
delta for the cycle. -/
def net_delta_reset (prev : Option NetSnapshot) (snapshot : NetSnapshot) :
    Option (Int × Int) × Bool :=
  match prev with
  | none => (none, false)
  | some p =>
    let rx_delta := i64Sub (i64OfU64 snapshot.rx_bytes) (i64OfU64 p.rx_bytes)
    let tx_delta := i64Sub (i64OfU64 snapshot.tx_bytes) (i64OfU64 p.tx_bytes)
    if rx_delta < 0 ∨ tx_delta < 0 then (none, true)
    else (some (rx_delta, tx_delta), false)

/-- One net-branch step of `collect_cycle` for one interface: the
`HashMap::insert` replaces the stored snapshot (returning the previous one)
before the delta check, so the new counter state is the raw snapshot in
every case — first observation, reset and normal delta alike. -/
def net_step (prev : Option NetSnapshot) (snapshot : NetSnapshot) :
    (Option (Int × Int) × Bool) × NetSnapshot :=
  (net_delta_reset prev snapshot, snapshot)

/-- One cpu-branch step of `collect_cycle` (wtui-daemon main.rs lines
105-119): a usage sample is emitted only when a previous reading exists and
`cpu_usage_percent` yields a value; `state.prev_cpu` is overwritten with
the current reading in every case. -/
def cpu_step (prev : Option CpuTimes) (current : CpuTimes) :
    Option ℚ × Option CpuTimes :=
  (match prev with
   | some p => cpu_usage_percent p current
   | none => none,
   some current)

/-! ### db.rs: rows and tables

One structure per fact table of the v1 schema, with the columns of
`install_v1`.  `rx_delta`/`tx_delta` are nullable in the schema but every
row written by `insert_net_sample` carries concrete integers, so the model
keeps them as `Int`. -/

structure CpuRow where
  timestamp : Int
  usage : ℚ
  source : Option String
deriving DecidableEq

structure RamRow where
  timestamp : Int
  used_bytes : Int
  total_bytes : Int
deriving DecidableEq

structure NetRow where
  timestamp : Int
  interface : String
  rx_bytes : Int
  tx_bytes : Int
  rx_delta : Int
  tx_delta : Int
  reset : Bool
deriving DecidableEq

structure BatteryRow where
  timestamp : Int
  name : String
  capacity : Option ℚ
  health : Option ℚ
  power_mw : Option ℚ
deriving DecidableEq

structure TempRow where
  timestamp : Int
  sensor : String
  value : ℚ
deriving DecidableEq

structure DiskRow where
  timestamp : Int
  mount : String
  used_bytes : Int
  total_bytes : Int
deriving DecidableEq

structure PowerRow where
  timestamp : Int
  domain : String
  draw_mw : ℚ
deriving DecidableEq

/-- The store: the seven append-only fact tables of the v1 schema. -/
structure Db where
  cpu_samples : List CpuRow
  ram_samples : List RamRow
  net_samples : List NetRow
  battery_samples : List BatteryRow
  temp_samples : List TempRow
  disk_samples : List DiskRow
  power_samples : List PowerRow
deriving DecidableEq

/-- Db with all tables empty. -/
def emptyDb : Db := ⟨[], [], [], [], [], [], []⟩

/-- `Database::insert_net_sample` (db.rs lines 121-135): the row inserted.
`delta.unwrap_or((0, 0))` supplies zero deltas when no delta was computed;
the raw counters are bound as `u64 as i64` casts and `reset` as an
integer flag. -/
def insert_net_sample (timestamp : Int) (interface : String)
    (snapshot : NetSnapshot) (delta : Option (Int × Int)) (reset : Bool) : NetRow :=
  let d := delta.getD (0, 0)
  { timestamp := timestamp
    interface := interface
    rx_bytes := i64OfU64 snapshot.rx_bytes
    tx_bytes := i64OfU64 snapshot.tx_bytes
    rx_delta := d.1
    tx_delta := d.2
    reset := reset }

/-- `Database::prune_older_than` (db.rs lines 192-209): for each of the
seven family tables, `DELETE FROM t WHERE timestamp < cutoff`. -/
def prune_older_than (cutoff : Int) (db : Db) : Db :=
  { cpu_samples := db.cpu_samples.filter (fun r => !decide (r.timestamp < cutoff))
    ram_samples := db.ram_samples.filter (fun r => !decide (r.timestamp < cutoff))
    net_samples := db.net_samples.filter (fun r => !decide (r.timestamp < cutoff))
    battery_samples := db.battery_samples.filter (fun r => !decide (r.timestamp < cutoff))
    temp_samples := db.temp_samples.filter (fun r => !decide (r.timestamp < cutoff))
    disk_samples := db.disk_samples.filter (fun r => !decide (r.timestamp < cutoff))
    power_samples := db.power_samples.filter (fun r => !decide (r.timestamp < cutoff)) }

/-- The retention gate of the daemon main loop (wtui-daemon main.rs lines
79-87): pruning runs only when `retention_days` is configured `Some` and
the amortization timer (600 s) has elapsed; the cutoff is
`now − days·86400` seconds.  `elapsed` abstracts
`state.last_retention.elapsed() > Duration::from_secs(600)`. -/
def retention_gate (retention_days : Option Nat) (elapsed : Bool) (now : Int)
    (db : Db) : Db :=
  match retention_days with
  | some days => if elapsed then prune_older_than (now - (days : Int) * 86400) db else db
  | none => db

/-- A store holding one cpu row below and one net row above a cutoff of 10,
used to exercise the pruning frame property concretely. -/
def c5_db : Db :=
  { emptyDb with
    cpu_samples := [{ timestamp := 5, usage := 1, source := none }]
    net_samples := [{ timestamp := 20, interface := "eth0", rx_bytes := 0, tx_bytes := 0,
                      rx_delta := 1, tx_delta := 2, reset := false }] }

/-! ### db.rs: aggregation -/

/-- The `strftime` format chosen by `aggregate_net`'s match on `group_by`
(db.rs lines 270-274): `"day"` and any unrecognized string map to the
daily format, `"hour"` to the hourly one. -/
def grouping (group_by : String) : String :=
  if group_by = "day" then "%Y-%m-%d"
  else if group_by = "hour" then "%Y-%m-%d %H:00"
  else "%Y-%m-%d"

/-- The bucket of a stored UTC timestamp under a `strftime` format, modelled
by an order-preserving integer code: two timestamps render to the same
`%Y-%m-%d` (resp. `%Y-%m-%d %H:00`) string over
`datetime(timestamp, 'unixepoch')` iff they lie in the same UTC day
(resp. hour), and lexicographic order of the zero-padded strings agrees
with the numeric order of these codes.  `Int` division is floor division
for the positive divisors used here, matching SQLite. -/
def bucketIndex (fmt : String) (ts : Int) : Int :=
  if fmt = "%Y-%m-%d %H:00" then ts / 3600 else ts / 86400

/-- `parse_bucket` (db.rs lines 339-354) on the bucket strings actually
produced by `aggregate_net`: a `%Y-%m-%d` rendering parses as midnight UTC
of that day; a `%Y-%m-%d %H:00` rendering parses as neither of the two
attempted shapes — `Date::parse` rejects the trailing `HH:00` and
`OffsetDateTime::parse` fails for want of minute, second and UTC-offset
components — so the function returns `None` for every hourly bucket. -/
def parse_bucket (fmt : String) (bucket : Int) : Option Int :=
  if fmt = "%Y-%m-%d" then some (bucket * 86400) else none

/-- The `WHERE (?2 IS NULL OR timestamp >= ?2)` range filter shared by
`aggregate_net` and `fetch_series`. -/
def sinceFilter (since : Option Int) (ts : Int) : Bool :=
  match since with
  | none => true
  | some s => decide (s ≤ ts)

/-- `SUM(rx_delta + tx_delta)` over the rows of one bucket. -/
def bucketSum (fmt : String) (rows : List NetRow) (k : Int) : Int :=
  ((rows.filter (fun r => decide (bucketIndex fmt r.timestamp = k))).map
    (fun r => r.rx_delta + r.tx_delta)).sum

/-- One output row of `aggregate_net`: the `MetricRow` produced for one
bucket, with the bucket label kept as its integer code. -/
structure AggRow where
  timestamp : Int
  value : Int
  bucket : Int
deriving DecidableEq

/-- `GROUP BY bucket ORDER BY bucket`: the distinct bucket codes of a row
set, in ascending (string, hence chronological) order. -/
def bucketKeys (fmt : String) (rows : List NetRow) : List Int :=
  List.insertionSort (· ≤ ·) ((rows.map (fun r => bucketIndex fmt r.timestamp)).dedup)

/-- `Database::aggregate_net` (db.rs lines 265-298): filter by `since`,
group by the rendered bucket string, sum `rx_delta + tx_delta` per group,
order by bucket, and for each bucket emit a row whose timestamp is
`parse_bucket(bucket).unwrap_or_else(|| OffsetDateTime::now_utc())` — the
wall clock at query time stands in whenever the bucket string does not
parse back. -/
def aggregate_net (rows : List NetRow) (since : Option Int) (group_by : String)
    (query_clock : Int) : List AggRow :=
  let fmt := grouping group_by
  let filtered := rows.filter (fun r => sinceFilter since r.timestamp)
  (bucketKeys fmt filtered).map (fun k =>
    { timestamp := (parse_bucket fmt k).getD query_clock
      value := bucketSum fmt filtered k
      bucket := k })

/-- Two same-day network rows with deltas `(100, 200)` and `(50, 50)`: the
worked example of the aggregation spec. -/
def c6_rows : List NetRow :=
  [{ timestamp := 100, interface := "eth0", rx_bytes := 1000, tx_bytes := 2000,
     rx_delta := 100, tx_delta := 200, reset := false },
   { timestamp := 50000, interface := "eth0", rx_bytes := 1050, tx_bytes := 2050,
     rx_delta := 50, tx_delta := 50, reset := false }]

/-- A single network row inside hour bucket 1 of the UTC epoch day. -/
def c8_rows : List NetRow :=
  [{ timestamp := 3600, interface := "eth0", rx_bytes := 0, tx_bytes := 0,
     rx_delta := 1, tx_delta := 0, reset := false }]

/-! ### db.rs: views and fetch_series -/

/-- A row of one of the seven normalized `*_view`s: `(timestamp, value,
label)`.  `value` is an SQL expression that can be NULL (battery capacity,
or a REAL division by zero). -/
structure ViewRow where
  timestamp : Int
  value : Option ℚ
  label : Option String
deriving DecidableEq

def cpu_samples_view (r : CpuRow) : ViewRow :=
  ⟨r.timestamp, some r.usage, r.source⟩

/-- ram view: `used/total × 100` as REAL division; SQLite yields NULL on a
zero divisor. -/
def ram_samples_view (r : RamRow) : ViewRow :=
  ⟨r.timestamp,
   if r.total_bytes = 0 then none
   else some ((r.used_bytes : ℚ) / (r.total_bytes : ℚ) * 100), none⟩

def net_samples_view (r : NetRow) : ViewRow :=
  ⟨r.timestamp, some ((r.rx_delta + r.tx_delta : Int) : ℚ), some r.interface⟩

def battery_samples_view (r : BatteryRow) : ViewRow :=
  ⟨r.timestamp, r.capacity, some r.name⟩

def temp_samples_view (r : TempRow) : ViewRow :=
  ⟨r.timestamp, some r.value, some r.sensor⟩

def disk_samples_view (r : DiskRow) : ViewRow :=
  ⟨r.timestamp,
   if r.total_bytes = 0 then none
   else some ((r.used_bytes : ℚ) / (r.total_bytes : ℚ) * 100), some r.mount⟩

def power_samples_view (r : PowerRow) : ViewRow :=
  ⟨r.timestamp, some r.draw_mw, some r.domain⟩

/-- The view backing `{table}_view` for each valid table name; `none` for a
name with no such view (an SQL error in the source). -/
def view_rows (db : Db) (table : String) : Option (List ViewRow) :=
  if table = "cpu_samples" then some (db.cpu_samples.map cpu_samples_view)
  else if table = "ram_samples" then some (db.ram_samples.map ram_samples_view)
  else if table = "net_samples" then some (db.net_samples.map net_samples_view)
  else if table = "battery_samples" then some (db.battery_samples.map battery_samples_view)
  else if table = "temp_samples" then some (db.temp_samples.map temp_samples_view)
  else if table = "disk_samples" then some (db.disk_samples.map disk_samples_view)
  else if table = "power_samples" then some (db.power_samples.map power_samples_view)
  else none

/-- Failures surfaced by the storage layer to the viewer. -/
inductive StoreError where
  | noSuchView
  | invalidColumnType
deriving DecidableEq

instance {ε α : Type} [DecidableEq ε] [DecidableEq α] : DecidableEq (Except ε α) := fun a b =>
  match a, b with
  | .ok x, .ok y =>
    if h : x = y then .isTrue (by rw [h]) else .isFalse (by intro hc; cases hc; exact h rfl)
  | .error x, .error y =>
    if h : x = y then .isTrue (by rw [h]) else .isFalse (by intro hc; cases hc; exact h rfl)
  | .ok _, .error _ => .isFalse (by intro hc; cases hc)
  | .error _, .ok _ => .isFalse (by intro hc; cases hc)

/-- `MetricRow` from db.rs: `(timestamp, value, label)` with a non-null
`f64` value. -/
structure MetricRow where
  timestamp : Int
  value : ℚ
  label : Option String
deriving DecidableEq

/-- `Database::fetch_series` (db.rs lines 211-245): select
`timestamp, value, label` from `{table}_view`, optionally restricted to
`timestamp >= since`, ordered by timestamp; reading a NULL `value` into
`f64` is a row-mapping error. -/
def fetch_series (db : Db) (table : String) (since : Option Int) :
    Except StoreError (List MetricRow) :=
  match view_rows db table with
  | none => .error .noSuchView
  | some rows =>
    let kept := rows.filter (fun r => sinceFilter since r.timestamp)
    let ordered := List.insertionSort (fun a b => a.timestamp ≤ b.timestamp) kept
    ordered.mapM (fun r =>
      match r.value with
      | some v => .ok ⟨r.timestamp, v, r.label⟩
      | none => .error .invalidColumnType)

/-! ### wtui viewer (crates/wtui/src/main.rs): the query facade -/

/-- Boolean check that a character list begins with a pattern
(Rust `str::starts_with`). -/
def leadsWith : List Char → List Char → Bool
  | _, [] => true
  | [], _ :: _ => false
  | c :: cs, p :: ps => c == p && leadsWith cs ps

/-- Boolean substring check (Rust `str::contains`). -/
def charsContains : List Char → List Char → Bool
  | [], pat => leadsWith [] pat
  | c :: rest, pat => leadsWith (c :: rest) pat || charsContains rest pat

/-- `table_for_metric` (wtui main.rs lines 341-352): the string-keyed map
from a metric name to its backing table, `None` for a name matching no
family. -/
def table_for_metric (metric : String) : Option String :=
  if metric = "cpu" ∨ metric = "cpu_usage" then some "cpu_samples"
  else if metric = "ram" ∨ metric = "ram_usage" then some "ram_samples"
  else if metric = "net" ∨ metric = "net_bytes" then some "net_samples"
  else if leadsWith metric.data "battery".data then some "battery_samples"
  else if charsContains metric.data "temp".data ∨ metric = "temps" then some "temp_samples"
  else if charsContains metric.data "disk".data then some "disk_samples"
  else if charsContains metric.data "power".data then some "power_samples"
  else none

/-- `MetricSeries` from models.rs, holding the points produced for one
requested metric. -/
structure MetricSeries where
  name : String
  unit : Option String
  points : List MetricRow
deriving DecidableEq

/-- Decimal rendering standing in for the bucket label string of an
aggregated point. -/
def bucketLabel (k : Int) : String := toString k

/-- `App::load_from_db` (wtui main.rs lines 156-191): for each requested
metric, `net_bytes` is special-cased into `aggregate_net(since, "day")`;
every other metric is fetched through its normalized view when
`table_for_metric` knows it and is skipped silently — with no error and no
series — when it does not.  A storage error aborts the whole load (the
Rust `?`). -/
def load_from_db (db : Db) (metrics : List String) (since : Option Int)
    (query_clock : Int) : Except StoreError (List MetricSeries) :=
  match metrics with
  | [] => .ok []
  | m :: rest =>
    if m = "net_bytes" then
      let rows := aggregate_net db.net_samples since "day" query_clock
      let s : MetricSeries :=
        ⟨"net_bytes", some "bytes",
         rows.map (fun r => ⟨r.timestamp, (r.value : ℚ), some (bucketLabel r.bucket)⟩)⟩
      (load_from_db db rest since query_clock).map (fun tail => s :: tail)
    else
      match table_for_metric m with
      | some table =>
        match fetch_series db table since with
        | .error e => .error e
        | .ok rows =>
          (load_from_db db rest since query_clock).map (fun tail => ⟨m, none, rows⟩ :: tail)
      | none => load_from_db db rest since query_clock

/-! ### db.rs: schema migration -/

/-- The catalog state of one store file: the `user_version` pragma plus the
names of existing tables, indexes and views. -/
structure Schema where
  user_version : Int
  tables : List String
  indexes : List String
  views : List String
deriving DecidableEq

/-- `CREATE ... IF NOT EXISTS name`: a no-op when the name already exists,
hence never an error. -/
def createIfAbsent (xs : List String) (name : String) : List String :=
  if name ∈ xs then xs else xs ++ [name]

def v1_tables : List String :=
  ["cpu_samples", "ram_samples", "net_samples", "battery_samples",
   "temp_samples", "disk_samples", "power_samples"]

def v1_indexes : List String :=
  ["idx_cpu_ts", "idx_ram_ts", "idx_net_ts", "idx_battery_ts",
   "idx_temp_ts", "idx_disk_ts", "idx_power_ts"]

def view_names : List String :=
  ["cpu_samples_view", "ram_samples_view", "net_samples_view",
   "battery_samples_view", "temp_samples_view", "disk_samples_view",
   "power_samples_view"]

/-- `Database::install_v1` (db.rs lines 36-98): the v1 DDL batch; every
statement is `CREATE ... IF NOT EXISTS`. -/
def install_v1 (s : Schema) : Schema :=
  { s with
    tables := v1_tables.foldl createIfAbsent s.tables
    indexes := v1_indexes.foldl createIfAbsent s.indexes }

/-- `ensure_views` (db.rs lines 311-337): the seven
`CREATE VIEW IF NOT EXISTS` statements. -/
def install_views (s : Schema) : Schema :=
  { s with views := view_names.foldl createIfAbsent s.views }

/-- `Database::migrate` (db.rs lines 365-377): when `PRAGMA user_version`
is 0, run `install_v1` and set the version to `SchemaVersion::V1 = 1`;
views are (re-)ensured on every run. -/
def migrate (s : Schema) : Schema :=
  let s1 :=
    if s.user_version = 0 then
      { install_v1 s with user_version := 1 }
    else s
  install_views s1

/-! ## Helper lemmas -/

/-- When both operands fit below `2^63`, the `u64 as i64` casts followed by
`i64` subtraction compute the exact integer difference. -/
theorem i64Sub_cast_eq (a b : Nat) (ha : a < 2 ^ 63) (hb : b < 2 ^ 63) :
    i64Sub (i64OfU64 a) (i64OfU64 b) = (a : Int) - b := by
  unfold i64Sub i64OfU64 wrapI64
  omega

/-- For counters below `2^63`, the delta engine's branch is decided exactly
by whether either counter decreased. -/
theorem net_delta_reset_bounded (p s : NetSnapshot)
    (hp1 : p.rx_bytes < 2 ^ 63) (hp2 : p.tx_bytes < 2 ^ 63)
    (hs1 : s.rx_bytes < 2 ^ 63) (hs2 : s.tx_bytes < 2 ^ 63) :
    net_delta_reset (some p) s =
      if s.rx_bytes < p.rx_bytes ∨ s.tx_bytes < p.tx_bytes then (none, true)
      else (some ((s.rx_bytes : Int) - p.rx_bytes, (s.tx_bytes : Int) - p.tx_bytes), false) := by
  have hrx := i64Sub_cast_eq s.rx_bytes p.rx_bytes hs1 hp1
  have htx := i64Sub_cast_eq s.tx_bytes p.tx_bytes hs2 hp2
  have hcond : ((s.rx_bytes : Int) - p.rx_bytes < 0 ∨ (s.tx_bytes : Int) - p.tx_bytes < 0)
      ↔ (s.rx_bytes < p.rx_bytes ∨ s.tx_bytes < p.tx_bytes) := by omega
  simp only [net_delta_reset, hrx, htx]
  rw [if_congr hcond rfl rfl]

/-- The usage ratio `(Δtotal − Δidle)/Δtotal × 100` (with saturating
numerator) lies in `[0, 100]` whenever `Δtotal ≠ 0`. -/
theorem usage_ratio_range (totald idled : Nat) (h : totald ≠ 0) :
    0 ≤ ((totald - idled : Nat) : ℚ) / (totald : ℚ) * 100 ∧
      ((totald - idled : Nat) : ℚ) / (totald : ℚ) * 100 ≤ 100 := by
  have htpos : (0 : ℚ) < (totald : ℚ) := by exact_mod_cast Nat.pos_of_ne_zero h
  constructor
  · positivity
  · have hle : ((totald - idled : Nat) : ℚ) ≤ (totald : ℚ) := by
      exact_mod_cast Nat.sub_le totald idled
    have hdiv : ((totald - idled : Nat) : ℚ) / (totald : ℚ) ≤ 1 := (div_le_one htpos).mpr hle
    have := mul_le_mul_of_nonneg_right hdiv (by norm_num : (0 : ℚ) ≤ 100)
    simpa using this

theorem mem_createIfAbsent {xs : List String} (n : String) {a : String} (h : a ∈ xs) :
    a ∈ createIfAbsent xs n := by
  unfold createIfAbsent
  split
  · exact h
  · exact List.mem_append_left _ h

theorem self_mem_createIfAbsent (xs : List String) (n : String) : n ∈ createIfAbsent xs n := by
  unfold createIfAbsent
  split
  · assumption
  · simp

theorem createIfAbsent_of_mem {xs : List String} {n : String} (h : n ∈ xs) :
    createIfAbsent xs n = xs := by
  unfold createIfAbsent
  simp [h]

theorem mem_foldl_createIfAbsent (names : List String) {xs : List String} {a : String}
    (h : a ∈ xs) : a ∈ names.foldl createIfAbsent xs := by
  induction names generalizing xs with
  | nil => exact h
  | cons n ns ih => exact ih (mem_createIfAbsent n h)

theorem mem_foldl_createIfAbsent_of_mem (names : List String) (xs : List String) {a : String}
    (h : a ∈ names) : a ∈ names.foldl createIfAbsent xs := by
  induction names generalizing xs with
  | nil => cases h
  | cons n ns ih =>
    rcases List.mem_cons.mp h with rfl | h2
    · exact mem_foldl_createIfAbsent ns (self_mem_createIfAbsent xs a)
    · exact ih (createIfAbsent xs n) h2

theorem foldl_createIfAbsent_of_subset (names : List String) {xs : List String}
    (h : ∀ n ∈ names, n ∈ xs) : names.foldl createIfAbsent xs = xs := by
  induction names with
  | nil => rfl
  | cons n ns ih =>
    show ns.foldl createIfAbsent (createIfAbsent xs n) = xs
    rw [createIfAbsent_of_mem (h n (List.mem_cons_self n ns))]
    exact ih (fun m hm => h m (List.mem_cons_of_mem _ hm))

theorem install_views_idem (s : Schema) : install_views (install_views s) = install_views s := by
  have hsub : ∀ w : List String,
      view_names.foldl createIfAbsent (view_names.foldl createIfAbsent w)
        = view_names.foldl createIfAbsent w :=
    fun _ => foldl_createIfAbsent_of_subset _ (fun n hn => mem_foldl_createIfAbsent_of_mem _ _ hn)
  cases s with
  | mk v t i w =>
    simp only [install_views]
    rw [hsub]

theorem sorted_nodup_pairwise_lt {l : List Int} (h1 : l.Sorted (· ≤ ·)) (h2 : l.Nodup) :
    l.Pairwise (· < ·) :=
  (h1.and h2).imp (fun h => lt_of_le_of_ne h.1 h.2)

theorem bucketKeys_sorted (fmt : String) (rows : List NetRow) :
    (bucketKeys fmt rows).Sorted (· ≤ ·) :=
  List.sorted_insertionSort _ _

theorem bucketKeys_nodup (fmt : String) (rows : List NetRow) :
    (bucketKeys fmt rows).Nodup :=
  ((List.perm_insertionSort _ _).nodup_iff).mpr (List.nodup_dedup _)

theorem mem_bucketKeys {fmt : String} {rows : List NetRow} {k : Int} :
    k ∈ bucketKeys fmt rows ↔ ∃ r ∈ rows, bucketIndex fmt r.timestamp = k := by
  unfold bucketKeys
  rw [(List.perm_insertionSort _ _).mem_iff, List.mem_dedup]
  simp [List.mem_map]

/-- A row whose two delta columns sum to zero adds nothing to any bucket
sum. -/
theorem bucketSum_cons_zero {r : NetRow} (h : r.rx_delta + r.tx_delta = 0)
    (fmt : String) (rows : List NetRow) (k : Int) :
    bucketSum fmt (r :: rows) k = bucketSum fmt rows k := by
  unfold bucketSum
  by_cases hb : bucketIndex fmt r.timestamp = k
  · simp [hb, h]
  · simp [hb]

/-! ## Claims -/

/-- C1, counterexample: at `rx_prev = 0`, `rx_now = 2^63` (and both tx
counters 0) the collection cycle marks `reset = true` although neither
counter decreased — the `u64 as i64` cast turns the current reading
negative — so the claimed equivalence fails as stated over all `u64`
snapshot pairs. -/
theorem c1_net_reset_iff_cex :
    (net_delta_reset (some ⟨0, 0⟩) ⟨2 ^ 63, 0⟩).2 = true ∧
    ¬ ((2 ^ 63 : Nat) < 0 ∨ (0 : Nat) < 0) :=
  ⟨by decide, by decide⟩

/-- C1 (amended): provided all four raw counters are below `2^63`, so the
`u64 as i64` casts are value-preserving and the subtraction cannot
overflow, the collection cycle marks `reset = true` iff
`rx_now < rx_prev` or `tx_now < tx_prev`, and otherwise records exactly the
delta `(rx_now − rx_prev, tx_now − tx_prev)` with `reset = false`. -/
theorem c1_net_reset_iff (p s : NetSnapshot)
    (hp1 : p.rx_bytes < 2 ^ 63) (hp2 : p.tx_bytes < 2 ^ 63)
    (hs1 : s.rx_bytes < 2 ^ 63) (hs2 : s.tx_bytes < 2 ^ 63) :
    ((net_delta_reset (some p) s).2 = true ↔
      (s.rx_bytes < p.rx_bytes ∨ s.tx_bytes < p.tx_bytes)) ∧
    (¬ (s.rx_bytes < p.rx_bytes ∨ s.tx_bytes < p.tx_bytes) →
      (net_delta_reset (some p) s).1
        = some ((s.rx_bytes : Int) - p.rx_bytes, (s.tx_bytes : Int) - p.tx_bytes)) := by
  rw [net_delta_reset_bounded p s hp1 hp2 hs1 hs2]
  by_cases hdec : s.rx_bytes < p.rx_bytes ∨ s.tx_bytes < p.tx_bytes
  · simp [hdec]
  · simp [hdec]

theorem c1_net_reset_iff_witness :
    (net_delta_reset (some ⟨100, 50⟩) ⟨300, 50⟩).1 = some (200, 0) :=
  (((c1_net_reset_iff ⟨100, 50⟩ ⟨300, 50⟩ (by decide) (by decide) (by decide)
    (by decide)).2) (by decide)).trans (by decide)

/-- C2: whenever `cpu_usage_percent` returns a usage value it lies in
`[0, 100]`; it returns no value when the total counter decreased
(wraparound), when the idle counter decreased, or when the total delta is
zero. -/
theorem c2_cpu_usage_percent_range (prev current : CpuTimes) :
    (∀ u, cpu_usage_percent prev current = some u → 0 ≤ u ∧ u ≤ 100) ∧
    (current.total < prev.total → cpu_usage_percent prev current = none) ∧
    (current.idle_total < prev.idle_total → cpu_usage_percent prev current = none) ∧
    (current.total = prev.total → cpu_usage_percent prev current = none) := by
  refine ⟨?_, ?_, ?_, ?_⟩
  · intro u hu
    simp only [cpu_usage_percent] at hu
    split at hu
    · exact absurd hu (by simp)
    · split at hu
      · exact absurd hu (by simp)
      · split at hu
        · exact absurd hu (by simp)
        · injection hu with hu
          subst hu
          rename_i h3
          exact usage_ratio_range _ _ h3
  · intro h
    have houter : checkedSub current.total prev.total = none := by
      unfold checkedSub
      exact if_neg (not_le.mpr h)
    simp only [cpu_usage_percent, houter]
  · intro h
    have hinner : checkedSub current.idle_total prev.idle_total = none := by
      unfold checkedSub
      exact if_neg (not_le.mpr h)
    simp only [cpu_usage_percent, hinner]
    split <;> rfl
  · intro h
    have houter : checkedSub current.total prev.total = some 0 := by
      unfold checkedSub
      rw [if_pos h.ge, Nat.sub_eq_zero_of_le h.le]
    simp only [cpu_usage_percent, houter]
    split <;> rfl

theorem c2_cpu_usage_percent_range_witness :
    cpu_usage_percent ⟨100, 0, 0, 50, 0, 0, 0, 0⟩ ⟨200, 0, 0, 100, 0, 0, 0, 0⟩
      = some (200 / 3) ∧
    (0 ≤ (200 / 3 : ℚ) ∧ (200 / 3 : ℚ) ≤ 100) ∧
    cpu_usage_percent ⟨100, 0, 0, 50, 0, 0, 0, 0⟩ ⟨100, 0, 0, 50, 0, 0, 0, 0⟩ = none := by
  have heq : cpu_usage_percent ⟨100, 0, 0, 50, 0, 0, 0, 0⟩ ⟨200, 0, 0, 100, 0, 0, 0, 0⟩
      = some (200 / 3) := by
    simp [cpu_usage_percent, checkedSub, CpuTimes.total, CpuTimes.idle_total]
    norm_num
  exact ⟨heq, (c2_cpu_usage_percent_range _ _).1 _ heq,
    (c2_cpu_usage_percent_range ⟨100, 0, 0, 50, 0, 0, 0, 0⟩ _).2.2.2 rfl⟩

/-- C3, counterexample: with `rx_prev = 2^64 − 1` (cast to `-1_i64`) and
`rx_now = 0`, the cycle emits the delta `(1, 0)` although the new raw value
is smaller than the old one, so "a delta is emitted only when the new raw
value is ≥ the old value" fails as stated over all `u64` counters. -/
theorem c3_delta_emission_cex :
    (net_delta_reset (some ⟨2 ^ 64 - 1, 0⟩) ⟨0, 0⟩).1 = some (1, 0) ∧
    (0 : Nat) < 2 ^ 64 - 1 :=
  ⟨by decide, by decide⟩

/-- C3 (amended): on the first observation of a source no delta is emitted
and the state is only seeded (CPU and network alike); a CPU usage value is
emitted only when a prior reading exists and its total did not decrease;
and for network counters below `2^63` a delta is emitted only when a prior
snapshot exists and neither counter decreased, a decrease suppressing the
delta for that cycle. -/
theorem c3_delta_emission :
    (∀ current : CpuTimes, cpu_step none current = (none, some current)) ∧
    (∀ prev current : CpuTimes, ∀ u,
      (cpu_step (some prev) current).1 = some u → prev.total ≤ current.total) ∧
    (∀ snapshot : NetSnapshot, net_step none snapshot = ((none, false), snapshot)) ∧
    (∀ p s : NetSnapshot, p.rx_bytes < 2 ^ 63 → p.tx_bytes < 2 ^ 63 →
      s.rx_bytes < 2 ^ 63 → s.tx_bytes < 2 ^ 63 →
      (∀ d, (net_delta_reset (some p) s).1 = some d →
        p.rx_bytes ≤ s.rx_bytes ∧ p.tx_bytes ≤ s.tx_bytes) ∧
      ((s.rx_bytes < p.rx_bytes ∨ s.tx_bytes < p.tx_bytes) →
        (net_delta_reset (some p) s).1 = none)) := by
  refine ⟨fun _ => rfl, ?_, fun _ => rfl, ?_⟩
  · intro prev current u hu
    by_cases h1 : prev.total ≤ current.total
    · exact h1
    · have houter : checkedSub current.total prev.total = none := by
        unfold checkedSub
        exact if_neg h1
      simp only [cpu_step, cpu_usage_percent, houter] at hu
      exact absurd hu (by simp)
  · intro p s hp1 hp2 hs1 hs2
    rw [net_delta_reset_bounded p s hp1 hp2 hs1 hs2]
    by_cases hdec : s.rx_bytes < p.rx_bytes ∨ s.tx_bytes < p.tx_bytes
    · simp [hdec]
    · simp only [if_neg hdec]
      refine ⟨fun d _ => ?_, fun h => absurd h hdec⟩
      omega

theorem c3_delta_emission_witness :
    cpu_step none ⟨1, 0, 0, 0, 0, 0, 0, 0⟩ = (none, some ⟨1, 0, 0, 0, 0, 0, 0, 0⟩) ∧
    (net_delta_reset (some ⟨10, 10⟩) ⟨5, 10⟩).1 = none :=
  ⟨c3_delta_emission.1 ⟨1, 0, 0, 0, 0, 0, 0, 0⟩,
   ((c3_delta_emission.2.2.2 ⟨10, 10⟩ ⟨5, 10⟩ (by decide) (by decide) (by decide)
     (by decide)).2) (by decide)⟩

/-- C4: running the schema migration a second time against any store state
— in particular an already-migrated one — yields the identical schema:
the same tables, indexes, views and version number.  Every DDL statement
is `CREATE ... IF NOT EXISTS` (modelled by the total `createIfAbsent`), so
the second run has no failing statement. -/
theorem c4_migrate_idempotent (s : Schema) : migrate (migrate s) = migrate s := by
  have huv : ∀ t : Schema, (install_views t).user_version = t.user_version := by
    intro t
    cases t
    simp [install_views]
  have hm : (migrate s).user_version ≠ 0 := by
    simp only [migrate]
    by_cases h0 : s.user_version = 0
    · rw [if_pos h0, huv]
      cases hsv : install_v1 s
      simp
    · rw [if_neg h0, huv]
      exact h0
  obtain ⟨s1, hs1⟩ : ∃ s1, migrate s = install_views s1 :=
    ⟨if s.user_version = 0 then { install_v1 s with user_version := 1 } else s, rfl⟩
  rw [hs1] at hm ⊢
  simp only [migrate, if_neg hm]
  exact install_views_idem s1

/-- C5: after `prune_older_than` with cutoff `T`, a row belongs to a family
table iff it was there before and its timestamp is not below `T` — so no
row older than `T` remains and every row at or after `T` survives — and a
configuration without `retention_days` never invokes deletion at all. -/
theorem c5_prune_frame (db : Db) (T : Int) :
    (∀ r, r ∈ (prune_older_than T db).cpu_samples ↔
      r ∈ db.cpu_samples ∧ ¬ r.timestamp < T) ∧
    (∀ r, r ∈ (prune_older_than T db).ram_samples ↔
      r ∈ db.ram_samples ∧ ¬ r.timestamp < T) ∧
    (∀ r, r ∈ (prune_older_than T db).net_samples ↔
      r ∈ db.net_samples ∧ ¬ r.timestamp < T) ∧
    (∀ r, r ∈ (prune_older_than T db).battery_samples ↔
      r ∈ db.battery_samples ∧ ¬ r.timestamp < T) ∧
    (∀ r, r ∈ (prune_older_than T db).temp_samples ↔
      r ∈ db.temp_samples ∧ ¬ r.timestamp < T) ∧
    (∀ r, r ∈ (prune_older_than T db).disk_samples ↔
      r ∈ db.disk_samples ∧ ¬ r.timestamp < T) ∧
    (∀ r, r ∈ (prune_older_than T db).power_samples ↔
      r ∈ db.power_samples ∧ ¬ r.timestamp < T) ∧
    (∀ (elapsed : Bool) (now : Int) (db2 : Db), retention_gate none elapsed now db2 = db2) := by
  refine ⟨?_, ?_, ?_, ?_, ?_, ?_, ?_, fun _ _ _ => rfl⟩ <;>
    · intro r
      simp [prune_older_than, List.mem_filter]

theorem c5_prune_frame_witness :
    ({ timestamp := 5, usage := 1, source := none } : CpuRow)
      ∉ (prune_older_than 10 c5_db).cpu_samples ∧
    ({ timestamp := 20, interface := "eth0", rx_bytes := 0, tx_bytes := 0,
       rx_delta := 1, tx_delta := 2, reset := false } : NetRow)
      ∈ (prune_older_than 10 c5_db).net_samples ∧
    retention_gate none true 99 c5_db = c5_db := by
  refine ⟨?_, ?_, (c5_prune_frame c5_db 10).2.2.2.2.2.2.2 true 99 c5_db⟩
  · intro hmem
    exact absurd (((c5_prune_frame c5_db 10).1 _).mp hmem).2 (by decide)
  · exact ((c5_prune_frame c5_db 10).2.2.1 _).mpr ⟨by decide, by decide⟩

/-- C6: `aggregate_net` falls back to daily bucketing for every granularity
other than `"hour"` (in particular for unrecognized strings), its output
is strictly ordered by bucket — one point per occupied bucket, a bucket
being occupied exactly when some row in range falls into it — each point's
value is the sum of `rx_delta + tx_delta` over the rows of its bucket, and
the worked example (same-day deltas `(100, 200)` and `(50, 50)`) yields
the single daily bucket 400. -/
theorem c6_aggregate_net_spec (rows : List NetRow) (since : Option Int) (g : String)
    (clock : Int) :
    (g ≠ "day" → g ≠ "hour" →
      aggregate_net rows since g clock = aggregate_net rows since "day" clock) ∧
    (aggregate_net rows since g clock).Pairwise (fun a b => a.bucket < b.bucket) ∧
    (∀ p ∈ aggregate_net rows since g clock,
      p.value = bucketSum (grouping g)
        (rows.filter (fun r => sinceFilter since r.timestamp)) p.bucket) ∧
    (∀ k, k ∈ (aggregate_net rows since g clock).map AggRow.bucket ↔
      ∃ r ∈ rows, sinceFilter since r.timestamp = true ∧
        bucketIndex (grouping g) r.timestamp = k) ∧
    aggregate_net c6_rows none "day" 0 = [⟨0, 400, 0⟩] := by
  refine ⟨?_, ?_, ?_, ?_, by decide⟩
  · intro h1 h2
    have hfmt : grouping g = grouping "day" := by
      unfold grouping
      rw [if_neg h1, if_neg h2, if_pos rfl]
    simp only [aggregate_net, hfmt]
  · rw [aggregate_net, List.pairwise_map]
    exact sorted_nodup_pairwise_lt (bucketKeys_sorted _ _) (bucketKeys_nodup _ _)
  · intro p hp
    rw [aggregate_net, List.mem_map] at hp
    obtain ⟨k, _, rfl⟩ := hp
    rfl
  · intro k
    rw [aggregate_net, List.map_map]
    show k ∈ (bucketKeys _ _).map (fun j => j) ↔ _
    rw [List.map_id']
    rw [mem_bucketKeys]
    simp only [List.mem_filter]
    tauto

theorem c6_aggregate_net_spec_witness :
    aggregate_net c6_rows none "weekly" 7 = aggregate_net c6_rows none "day" 7 :=
  (c6_aggregate_net_spec c6_rows none "weekly" 7).1 (by decide) (by decide)

/-- C7: the code does not implement the claimed contract.  An aggregate
line whose field count (label included) is exactly 8 — i.e. only 7 numeric
fields, which the claim says must be a format error — passes the
`parts.len() < 8` check and then panics indexing `nums[7]` into a
7-element vector; lines with at most 7 fields are format errors and lines
with at least 9 fields parse. -/
theorem c7_read_cpu_times_line_eval :
    read_cpu_times_line ("cpu 1 2 3 4 5 6 7").data = .panicked ∧
    read_cpu_times_line ("cpu 1 2 3 4 5 6").data = .formatError ∧
    read_cpu_times_line ("cpu 1 2 3 4 5 6 7 8").data = .ok ⟨1, 2, 3, 4, 5, 6, 7, 8⟩ ∧
    read_cpu_times_line ("cpu  3357 0 4313 1362393 2571 0 376 0 0 0").data
      = .ok ⟨3357, 0, 4313, 1362393, 2571, 0, 376, 0⟩ :=
  ⟨by decide, by decide, by decide, by decide⟩

/-- C8: the code does not implement the claimed determinism.  With hourly
grouping the bucket strings fail to re-parse, so each point's timestamp is
the wall clock at query time: the same stored rows queried at clocks 0 and
42 give different results.  Daily grouping is clock-independent on every
row set. -/
theorem c8_aggregate_net_clock :
    aggregate_net c8_rows none "hour" 0 ≠ aggregate_net c8_rows none "hour" 42 ∧
    (aggregate_net c8_rows none "hour" 42).map AggRow.timestamp = [42] ∧
    (∀ (rows : List NetRow) (since : Option Int) (c1 c2 : Int),
      aggregate_net rows since "day" c1 = aggregate_net rows since "day" c2) := by
  refine ⟨by decide, by decide, ?_⟩
  intro rows since c1 c2
  have hp : ∀ k : Int, (parse_bucket (grouping "day") k).getD c1
      = (parse_bucket (grouping "day") k).getD c2 := by
    intro k
    unfold parse_bucket grouping
    rw [if_pos rfl, if_pos rfl]
    rfl
  simp only [aggregate_net]
  exact List.map_congr_left (fun k _ => by rw [hp k])

/-- C9, counterexample: `"gpu"` maps to no metric family, yet a historical
load over it succeeds, returning no series and no error — there is no
`UnknownMetric` failure in the code. -/
theorem c9_unknown_metric_cex :
    table_for_metric "gpu" = none ∧
    load_from_db emptyDb ["gpu"] none 0 = .ok [] :=
  ⟨by decide, by decide⟩

/-- C9 (amended): a requested metric name that maps to no family is
silently skipped by `load_from_db` — the load of the remaining metrics
proceeds unchanged and no error is raised for the unknown name. -/
theorem c9_unknown_metric_skipped (db : Db) (m : String) (rest : List String)
    (since : Option Int) (clock : Int) (h : table_for_metric m = none) :
    load_from_db db (m :: rest) since clock = load_from_db db rest since clock := by
  by_cases hm : m = "net_bytes"
  · subst hm
    exact absurd h (by decide)
  · simp only [load_from_db, if_neg hm, h]

theorem c9_unknown_metric_skipped_witness :
    load_from_db emptyDb ["gradient"] none 0 = load_from_db emptyDb [] none 0 :=
  c9_unknown_metric_skipped emptyDb "gradient" [] none 0 (by decide)

/-- C10: a net sample inserted without a computed delta (first observation
or reset) stores `rx_delta = 0` and `tx_delta = 0`; through
`net_samples_view` such a row surfaces with value 0, and it contributes
exactly 0 to every `aggregate_net` bucket sum, both before and after the
`since` range filter. -/
theorem c10_insert_without_delta (ts : Int) (iface : String) (snapshot : NetSnapshot)
    (reset : Bool) :
    (insert_net_sample ts iface snapshot none reset).rx_delta = 0 ∧
    (insert_net_sample ts iface snapshot none reset).tx_delta = 0 ∧
    net_samples_view (insert_net_sample ts iface snapshot none reset)
      = ⟨ts, some 0, some iface⟩ ∧
    (∀ (fmt : String) (rows : List NetRow) (k : Int),
      bucketSum fmt (insert_net_sample ts iface snapshot none reset :: rows) k
        = bucketSum fmt rows k) ∧
    (∀ (fmt : String) (rows : List NetRow) (since : Option Int) (k : Int),
      bucketSum fmt ((insert_net_sample ts iface snapshot none reset :: rows).filter
          (fun r => sinceFilter since r.timestamp)) k
        = bucketSum fmt (rows.filter (fun r => sinceFilter since r.timestamp)) k) := by
  refine ⟨rfl, rfl, ?_, ?_, ?_⟩
  · simp [net_samples_view, insert_net_sample]
  · intro fmt rows k
    exact @bucketSum_cons_zero (insert_net_sample ts iface snapshot none reset) rfl fmt rows k
  · intro fmt rows since k
    rw [List.filter_cons]
    by_cases hkeep :
        sinceFilter since (insert_net_sample ts iface snapshot none reset).timestamp = true
    · rw [if_pos hkeep]
      exact @bucketSum_cons_zero (insert_net_sample ts iface snapshot none reset) rfl fmt _ k
    · rw [if_neg hkeep]

end Wtui
